import Mathlib

/-!
Verification of `reconcile/utils/amtool.py` and `reconcile/utils/quay_api.py`
(erdii/qontract-reconcile) against their natural-language specification.

The Python code is shallowly embedded: the file system, the subprocess and
the HTTP server are explicit oracles passed to each function, exceptions are
`Except`, and the client's mutable `team_members` dict is explicit state.
-/

set_option autoImplicit false

namespace Amtool

/-- `AmtoolResult` from `amtool.py`: `is_ok` is the `__bool__` field and
`message` the stored output text. -/
structure AmtoolResult where
  is_ok : Bool
  message : String
deriving Repr, DecidableEq

/-- Outcome of the `subprocess.run` call, as seen by the caller:
either the process was started and completed with a return code and captured
stdout, or it could not be started/run at all (binary missing, permission
denied, I/O failure) and the attempt raised an exception rendered as a
string. -/
inductive ProcOutcome where
  | completed (returncode : Nat) (stdoutText : String)
  | startError (excStr : String)
deriving Repr, DecidableEq

/-- `str(subprocess.CalledProcessError(returncode, cmd))` for a positive
return code: `"Command '<cmd>' returned non-zero exit status <n>."`.
`subprocess.run(..., check=True)` raises this exception exactly when the
process completed with a non-zero return code. -/
def calledProcessErrorStr (cmdRepr : String) (returncode : Nat) : String :=
  "Command " ++ cmdRepr ++ " returned non-zero exit status " ++
    toString returncode ++ "."

/-- The Python exception string produced inside the `try` block of
`_run_yaml_str_cmd` for a given process outcome, when one is raised:
`check=True` turns a non-zero exit into `CalledProcessError`; a failure to
start surfaces as the original OS exception. `none` means no exception. -/
def bodyException (cmdRepr : String) : ProcOutcome → Option String
  | .completed 0 _ => none
  | .completed (n + 1) _ => some (calledProcessErrorStr cmdRepr (n + 1))
  | .startError e => some e

/-- `_run_yaml_str_cmd(cmd, yaml_str)` from `amtool.py`, with the subprocess
modelled by an oracle `proc`.  The `try` block writes the YAML to a temp
file and runs the command with `check=True`; any exception `e` is caught and
converted to `AmtoolResult(False, f"Error running amtool: {e}")`; on normal
completion the captured stdout is returned with `is_ok = True`. -/
def run_yaml_str_cmd (cmdRepr : String) (proc : ProcOutcome) : AmtoolResult :=
  match bodyException cmdRepr proc with
  | some e => ⟨false, "Error running amtool: " ++ e⟩
  | none =>
    match proc with
    | .completed _ out => ⟨true, out⟩
    | .startError e => ⟨false, "Error running amtool: " ++ e⟩

/-- Printed form of the command list `['amtool', 'check-config', <path>]`
inside a `CalledProcessError` message. -/
def checkConfigCmdRepr (path : String) : String :=
  "[" ++ quoteArg "amtool" ++ ", " ++ quoteArg "check-config" ++ ", " ++
    quoteArg path ++ "]"
where
  quoteArg (s : String) : String := "'" ++ s ++ "'"

/-- `check_config(yaml_str)` from `amtool.py`: runs
`amtool check-config <tempfile>` on the given YAML string (the string's
content only affects the subprocess, which is the oracle here). -/
def check_config (tmpPath : String) (proc : ProcOutcome) : AmtoolResult :=
  run_yaml_str_cmd (checkConfigCmdRepr tmpPath) proc

/-- The `with tempfile.NamedTemporaryFile(...) as fp:` statement over an
explicit file-system state (the list of currently existing files): entry
creates the file, then the body runs (it may end in an exception), and
`__exit__` closes the file object — which deletes the file — on the normal
and on the exceptional path alike, before any exception propagates. -/
def withTempFile {α : Type} (name : String) (fs : List String)
    (body : List String → Except String α × List String) :
    Except String α × List String :=
  let created := name :: fs
  let (res, fsAfter) := body created
  (res, fsAfter.erase name)

/-- `_run_yaml_str_cmd` with the file system made explicit: the body of the
`with` block writes the YAML and runs the subprocess (never touching any
other file), the context manager deletes the temp file, and the surrounding
`try/except` converts an exception into a failed `AmtoolResult`. -/
def run_yaml_str_cmd_fs (cmdRepr : String) (proc : ProcOutcome)
    (tmpName : String) (fs : List String) : AmtoolResult × List String :=
  let (bodyRes, fsAfter) :=
    withTempFile tmpName fs fun created =>
      (match bodyException cmdRepr proc with
       | some e => .error e
       | none =>
         match proc with
         | .completed _ out => .ok out
         | .startError e => .error e,
       created)
  match bodyRes with
  | .ok out => (⟨true, out⟩, fsAfter)
  | .error e => (⟨false, "Error running amtool: " ++ e⟩, fsAfter)

end Amtool

namespace Quay

/-- One HTTP response as the client observes it: the status code, the raw
body text (`r.text`), and the JSON fields the client reads from `r.json()`
(each endpoint uses only the fields its real responses carry):
`jsonMembers` is the list of `name` fields under `body['members']`,
`jsonMessage` is `body['message']`, `jsonRole` is `body.get('role')`,
`jsonRepositories` the entries of `body.get('repositories', [])` and
`jsonNextPage` is `body.get('next_page')`. -/
structure Response where
  status_code : Nat
  text : String := ""
  jsonMembers : List String := []
  jsonMessage : String := ""
  jsonRole : Option String := none
  jsonRepositories : List String := []
  jsonNextPage : Option String := none
deriving Repr, DecidableEq

/-- `requests.Response.ok`: true unless `raise_for_status()` would raise,
i.e. unless the status code is in 400..599.  In particular a 3xx status
(such as 304, which `requests` does not auto-follow) counts as ok. -/
def Response.ok (r : Response) : Bool :=
  decide ¬(400 ≤ r.status_code ∧ r.status_code < 600)

/-- The exceptions the client can raise.  `valueError` is the Python
`ValueError` raised on a 404 team lookup; `requestsException` is
`RequestsException(r)`, whose message is built from `r.status_code` and
`r.text`; `typeErrorNonException` models the `TypeError: exceptions must
derive from BaseException` that Python 3 raises when the code executes
`raise("Too many page follows")` with a plain string operand (the argument
records the string the code tried to raise). -/
inductive QuayError where
  | valueError (msg : String)
  | requestsException (status_code : Nat) (text : String)
  | typeErrorNonException (attempted : String)
deriving Repr, DecidableEq

/-- Client state: the organization it is bound to and the `team_members`
dict, a mapping from team name to the member list cached for it (token and
URL never influence the modelled behaviour). -/
structure QuayApi where
  organization : String
  team_members : List (String × List String)
deriving Repr, DecidableEq

/-- `d.get(k)` on a Python dict modelled as an insertion-ordered
association list. -/
def dictGet (d : List (String × List String)) (k : String) :
    Option (List String) :=
  (d.find? fun p => p.1 == k).map fun p => p.2

/-- `d[k] = v` on a Python dict: overwrite in place if the key exists,
otherwise append a new entry. -/
def dictSet (d : List (String × List String)) (k : String)
    (v : List String) : List (String × List String) :=
  if d.any fun p => p.1 == k then
    d.map fun p => if p.1 == k then (k, v) else p
  else
    d ++ [(k, v)]

/-- Python truthiness of an optional list (`if cache_members:`):
`None` and the empty list are falsy. -/
def truthyList? : Option (List String) → Option (List String)
  | some [] => none
  | none => none
  | some xs => some xs

/-- Python truthiness of an optional string (`if page:`, `if next_page:`,
`... or None`): `None` and the empty string are falsy. -/
def truthyStr? : Option String → Option String
  | some "" => none
  | none => none
  | some s => some s

/-- `list(set(xs))`: the distinct elements of `xs` (Python's set iteration
order is implementation-defined; the model fixes first-occurrence order,
which no claim depends on). -/
def pySetList (xs : List String) : List String :=
  xs.eraseDups

/-- The `ValueError` message for a 404 team lookup, exactly as the f-string
in `list_team_members` builds it. -/
def notFoundMsg (team org : String) : String :=
  "team " ++ team ++ " is not found in org " ++ org ++
    ". contact org owner to create the team manually."

/-- `list_team_members(team, cache=...)`: on a cache hit (flag set and a
truthy cached list) return the cached list with no request; otherwise issue
one GET (`resp` is its response): 404 raises the `ValueError`, any other
non-ok status raises `RequestsException`, and on ok the deduplicated member
names are stored in the cache and returned.  The result is the returned
value or exception, the updated client state, and the number of HTTP
requests issued. -/
def list_team_members (api : QuayApi) (team : String) (cache : Bool)
    (resp : Response) : Except QuayError (List String) × QuayApi × Nat :=
  match if cache then truthyList? (dictGet api.team_members team) else none with
  | some cached => (.ok cached, api, 0)
  | none =>
    if resp.status_code == 404 then
      (.error (.valueError (notFoundMsg team api.organization)), api, 1)
    else if !resp.ok then
      (.error (.requestsException resp.status_code resp.text), api, 1)
    else
      let members_list := pySetList resp.jsonMembers
      (.ok members_list,
        { api with team_members := dictSet api.team_members team members_list },
        1)

/-- `user_exists(user)`: one GET; the method returns `r.ok` and can raise
nothing. -/
def user_exists (resp : Response) : Bool :=
  resp.ok

/-- The message `remove_user_from_team` tolerates on a failed team DELETE. -/
def expectedRemoveMsg (user team : String) : String :=
  "User " ++ user ++ " does not belong to team " ++ team

/-- `remove_user_from_team(user, team)`: DELETE on the team-membership
endpoint (`respTeam`); if it is not ok and its body message differs from the
expected "does not belong" message, raise `RequestsException` at once.
Otherwise DELETE on the organization-membership endpoint (`respOrg`); not ok
raises, ok returns `True`.  The `Nat` counts the DELETEs issued. -/
def remove_user_from_team (api : QuayApi) (user team : String)
    (respTeam respOrg : Response) : Except QuayError Bool × QuayApi × Nat :=
  if !respTeam.ok && respTeam.jsonMessage != expectedRemoveMsg user team then
    (.error (.requestsException respTeam.status_code respTeam.text), api, 1)
  else if !respOrg.ok then
    (.error (.requestsException respOrg.status_code respOrg.text), api, 2)
  else
    (.ok true, api, 2)

/-- `add_user_to_team(user, team)`: first `list_team_members(team,
cache=True)` (served by `respList` if it really issues a request); its
exception propagates; if the user is already a member, return `True` with no
further request; otherwise one PUT (`respPut`), raising on a non-ok status.
The `Nat` counts the HTTP requests issued. -/
def add_user_to_team (api : QuayApi) (user team : String)
    (respList respPut : Response) : Except QuayError Bool × QuayApi × Nat :=
  match list_team_members api team true respList with
  | (.error e, api1, n) => (.error e, api1, n)
  | (.ok members, api1, n) =>
    if user ∈ members then
      (.ok true, api1, n)
    else if !respPut.ok then
      (.error (.requestsException respPut.status_code respPut.text), api1,
        n + 1)
    else
      (.ok true, api1, n + 1)

/-- The body message `get_repo_team_permissions` treats as
"no permission". -/
def noPermissionMsg : String :=
  "Team does not have permission for repo."

/-- `get_repo_team_permissions(repo_name, team)`: one GET; on a non-ok
status with exactly the "no permission" message return `None`, any other
non-ok status raises; on ok return `r.json().get('role') or None` (so a
missing or empty `role` becomes `None`). -/
def get_repo_team_permissions (resp : Response) :
    Except QuayError (Option String) :=
  if !resp.ok then
    if resp.jsonMessage == noPermissionMsg then
      .ok none
    else
      .error (.requestsException resp.status_code resp.text)
  else
    .ok (truthyStr? resp.jsonRole)

/-- `QuayApi.LIMIT_FOLLOWS`. -/
def LIMIT_FOLLOWS : Nat := 15

/-- `list_images(images=None, page=None, count=0)`: when `count` exceeds
`LIMIT_FOLLOWS` the code executes `raise("Too many page follows")`, which in
Python 3 raises a `TypeError` (a plain string is not an exception); below
the limit it issues one GET (with `next_page=page` only when `page` is
truthy), raises `RequestsException` on a non-ok status, appends the body's
repositories to the accumulator, and recurses on a truthy `next_page` token
with `count + 1`, returning the accumulated list once the token is absent or
falsy. -/
def list_images (server : Option String → Response)
    (images : Option (List String)) (page : Option String) (count : Nat) :
    Except QuayError (List String) :=
  if h : count > LIMIT_FOLLOWS then
    .error (.typeErrorNonException "Too many page follows")
  else
    let r := server (truthyStr? page)
    if !r.ok then
      .error (.requestsException r.status_code r.text)
    else
      let acc := images.getD [] ++ r.jsonRepositories
      match truthyStr? r.jsonNextPage with
      | some np => list_images server (some acc) (some np) (count + 1)
      | none => .ok acc
termination_by LIMIT_FOLLOWS + 1 - count
decreasing_by simp only [LIMIT_FOLLOWS] at h ⊢; omega

/-- From query `q`, the server serves at least `n` chained pages: each
response is ok and carries a truthy next-page token (so a server satisfying
`hasChainB server none 16` presents a chain of at least 17 pages). -/
def hasChainB (server : Option String → Response) :
    Option String → Nat → Bool
  | _, 0 => true
  | q, n + 1 =>
    let r := server (truthyStr? q)
    r.ok &&
      match truthyStr? r.jsonNextPage with
      | some t => hasChainB server (some t) n
      | none => false

/-- From query `q`, the server serves a chain of exactly `n` pages: each
response is ok, the first `n - 1` carry truthy next-page tokens and the last
one does not. -/
def endsChainB (server : Option String → Response) :
    Option String → Nat → Bool
  | _, 0 => false
  | q, 1 =>
    let r := server (truthyStr? q)
    r.ok && (truthyStr? r.jsonNextPage).isNone
  | q, n + 2 =>
    let r := server (truthyStr? q)
    r.ok &&
      match truthyStr? r.jsonNextPage with
      | some t => endsChainB server (some t) (n + 1)
      | none => false

/-- The repositories listed along the first `n` pages of the chain starting
at query `q`, in page order. -/
def chainRepos (server : Option String → Response) :
    Option String → Nat → List String
  | _, 0 => []
  | q, n + 1 =>
    let r := server (truthyStr? q)
    r.jsonRepositories ++
      match truthyStr? r.jsonNextPage with
      | some t => chainRepos server (some t) n
      | none => []

/-- The next-page token naming page `i` of a concrete chain server:
`i` letters `a` (nonempty, hence truthy, for every `i ≥ 1`). -/
def tokenFor (i : Nat) : String :=
  String.mk (List.replicate i 'a')

/-- A concrete server presenting a linear chain of `total` pages: the root
query serves page 0, token `tokenFor i` serves page `i`, page `i` lists the
single repository `toString i`, and every page but the last links onwards. -/
def chainServer (total : Nat) : Option String → Response := fun q =>
  let i : Nat :=
    match q with
    | none => 0
    | some s => s.length
  { status_code := 200,
    jsonRepositories := [toString i],
    jsonNextPage := if i + 1 < total then some (tokenFor (i + 1)) else none }

end Quay

namespace Amtool

/-- C1 -- `check_config` returns `is_ok = true` iff the subprocess started
and exited with status 0; on zero exit the message is the captured stdout;
on a non-zero exit the message is `"Error running amtool: <str(e)>"` for the
`CalledProcessError` raised by `check=True`; on a failure to start it is
`"Error running amtool: <cause>"` for the start exception. -/
theorem check_config_result_spec (tmpPath : String) (proc : ProcOutcome) :
    ((check_config tmpPath proc).is_ok = true ↔
      ∃ out, proc = .completed 0 out) ∧
    (∀ out, proc = .completed 0 out →
      check_config tmpPath proc = ⟨true, out⟩) ∧
    (∀ n out, proc = .completed (n + 1) out →
      check_config tmpPath proc =
        ⟨false, "Error running amtool: " ++
          calledProcessErrorStr (checkConfigCmdRepr tmpPath) (n + 1)⟩) ∧
    (∀ cause, proc = .startError cause →
      check_config tmpPath proc =
        ⟨false, "Error running amtool: " ++ cause⟩) := by
  refine ⟨?_, ?_, ?_, ?_⟩
  · constructor
    · intro h
      match proc with
      | .completed 0 out => exact ⟨out, rfl⟩
      | .completed (n + 1) out =>
        simp [check_config, run_yaml_str_cmd, bodyException] at h
      | .startError e =>
        simp [check_config, run_yaml_str_cmd, bodyException] at h
    · rintro ⟨out, rfl⟩
      rfl
  · rintro out rfl; rfl
  · rintro n out rfl; rfl
  · rintro cause rfl; rfl

/-- Witness for C1 at concrete inputs: a zero-exit run yields the captured
stdout with success, and an exit status 2 yields the failure message. -/
theorem check_config_result_spec_witness :
    check_config "/tmp/f" (.completed 0 "Checking ok\n") =
      ⟨true, "Checking ok\n"⟩ ∧
    check_config "/tmp/f" (.completed 2 "") =
      ⟨false, "Error running amtool: " ++
        calledProcessErrorStr (checkConfigCmdRepr "/tmp/f") 2⟩ :=
  ⟨(check_config_result_spec "/tmp/f" (.completed 0 "Checking ok\n")).2.1
      "Checking ok\n" rfl,
   (check_config_result_spec "/tmp/f" (.completed 2 "")).2.2.1 1 "" rfl⟩

/-- C9 -- on every exit path (zero exit, non-zero exit, failure to start the
subprocess) the temporary file is created and then deleted again: the final
file-system state equals the initial one, and the result agrees with the
file-system-free model. -/
theorem run_yaml_str_cmd_deletes_tempfile (cmdRepr : String)
    (proc : ProcOutcome) (tmpName : String) (fs : List String) :
    run_yaml_str_cmd_fs cmdRepr proc tmpName fs =
      (run_yaml_str_cmd cmdRepr proc, fs) := by
  match proc with
  | .completed 0 out =>
    simp [run_yaml_str_cmd_fs, run_yaml_str_cmd, withTempFile, bodyException]
  | .completed (n + 1) out =>
    simp [run_yaml_str_cmd_fs, run_yaml_str_cmd, withTempFile, bodyException]
  | .startError e =>
    simp [run_yaml_str_cmd_fs, run_yaml_str_cmd, withTempFile, bodyException]

end Amtool

namespace Quay

/-- Helper: a truthy optional list is the list itself. -/
theorem truthyList?_eq_some (o : Option (List String)) (xs : List String)
    (h : truthyList? o = some xs) : o = some xs := by
  match o with
  | none => simp [truthyList?] at h
  | some [] => simp [truthyList?] at h
  | some (a :: l) => simpa [truthyList?] using h

/-- Helper: `dictGet` on a nonempty dict looks at the head first. -/
theorem dictGet_cons (p : String × List String)
    (d : List (String × List String)) (k : String) :
    dictGet (p :: d) k = if p.1 == k then some p.2 else dictGet d k := by
  by_cases hp : p.1 == k
  · simp [dictGet, List.find?_cons_of_pos, hp]
  · simp only [Bool.not_eq_true] at hp
    simp [dictGet, List.find?_cons_of_neg, hp]

/-- Helper: after `d[k] = v`, looking up `k` yields `v`. -/
theorem dictGet_dictSet_self (d : List (String × List String)) (k : String)
    (v : List String) : dictGet (dictSet d k v) k = some v := by
  induction d with
  | nil => simp [dictGet, dictSet]
  | cons p d ih =>
    unfold dictSet
    by_cases hp : p.1 == k
    · rw [if_pos (by simp [List.any_cons, hp]), List.map_cons, if_pos hp,
        dictGet_cons]
      simp
    · by_cases hd : d.any (fun q => q.1 == k)
      · rw [if_pos (by simp [List.any_cons, hd]), List.map_cons, if_neg hp,
          dictGet_cons, if_neg hp]
        have h2 := ih
        unfold dictSet at h2
        rw [if_pos hd] at h2
        exact h2
      · rw [Bool.not_eq_true] at hp hd
        rw [if_neg (by simp [List.any_cons, hp, hd]), List.cons_append,
          dictGet_cons, if_neg (by simp [hp])]
        have h2 := ih
        unfold dictSet at h2
        rw [if_neg (by simp [hd])] at h2
        exact h2

/-- Helper: with the cache flag set and a nonempty cached entry,
`list_team_members` is a pure cache hit. -/
theorem list_team_members_cache_hit (api : QuayApi) (team : String)
    (resp : Response) (ms : List String)
    (h : dictGet api.team_members team = some ms) (hne : ms ≠ []) :
    list_team_members api team true resp = (.ok ms, api, 0) := by
  have ht : truthyList? (dictGet api.team_members team) = some ms := by
    rw [h]
    match ms, hne with
    | a :: l, _ => rfl
  simp [list_team_members, ht]

/-- C3 (amended) -- `user_exists` never raises and returns exactly
`requests`' ok predicate: false when the status is in 400..599, true for any
status below 400 (including 3xx) and true for any status of 600 or above. -/
theorem user_exists_status_spec (resp : Response) :
    (400 ≤ resp.status_code → resp.status_code < 600 →
      user_exists resp = false) ∧
    (resp.status_code < 400 → user_exists resp = true) ∧
    (600 ≤ resp.status_code → user_exists resp = true) := by
  refine ⟨fun h1 h2 => ?_, fun h => ?_, fun h => ?_⟩ <;>
    simp [user_exists, Response.ok] <;> omega

/-- Witness for C3 (amended) at concrete statuses 500 and 200. -/
theorem user_exists_status_spec_witness :
    user_exists { status_code := 500 } = false ∧
    user_exists { status_code := 200 } = true :=
  ⟨(user_exists_status_spec { status_code := 500 }).1 (by decide) (by decide),
   (user_exists_status_spec { status_code := 200 }).2.1 (by decide)⟩

/-- C3 (counterexample) -- a 304 response is not a 2xx status, yet
`user_exists` returns true for it (`requests`' ok predicate accepts every
status below 400), refuting "returns true only when the status is 2xx". -/
theorem user_exists_304_true :
    user_exists { status_code := 304 } = true ∧ 300 ≤ 304 := by
  exact ⟨rfl, by omega⟩

/-- C5 (amended) -- a fetching `list_team_members` call raises the
`ValueError` naming the team and the organization exactly on a 404 status,
and raises `RequestsException` carrying the status code and body for every
other status in 400..599 (statuses outside that range are treated as
success by `requests`' ok predicate). -/
theorem list_team_members_error_spec (api : QuayApi) (team : String)
    (resp : Response) :
    (resp.status_code = 404 →
      list_team_members api team false resp =
        (.error (.valueError (notFoundMsg team api.organization)), api, 1)) ∧
    (400 ≤ resp.status_code → resp.status_code < 600 →
      resp.status_code ≠ 404 →
      list_team_members api team false resp =
        (.error (.requestsException resp.status_code resp.text), api, 1)) := by
  constructor
  · intro h
    simp [list_team_members, h]
  · intro h1 h2 h3
    have hok : resp.ok = false := by
      simp only [Response.ok, decide_eq_false_iff_not, not_not]
      exact ⟨h1, h2⟩
    have h404 : (resp.status_code == 404) = false := by
      simp [h3]
    simp [list_team_members, h404, hok]

/-- Witness for C5 (amended) at a concrete 404 and a concrete 500. -/
theorem list_team_members_error_spec_witness :
    list_team_members ⟨"org", []⟩ "blue" false { status_code := 404 } =
      (.error (.valueError (notFoundMsg "blue" "org")), ⟨"org", []⟩, 1) ∧
    list_team_members ⟨"org", []⟩ "blue" false
        { status_code := 500, text := "boom" } =
      (.error (.requestsException 500 "boom"), ⟨"org", []⟩, 1) :=
  ⟨(list_team_members_error_spec ⟨"org", []⟩ "blue"
      { status_code := 404 }).1 rfl,
   (list_team_members_error_spec ⟨"org", []⟩ "blue"
      { status_code := 500, text := "boom" }).2 (by decide) (by decide)
      (by decide)⟩

/-- C5 (counterexample) -- a 304 response is neither 2xx nor 404, yet a
fetching `list_team_members` call raises nothing: it parses the body and
returns the member list, refuting "raises the generic error for every other
non-2xx response". -/
theorem list_team_members_304_no_raise :
    list_team_members ⟨"org", []⟩ "blue" false
        { status_code := 304, jsonMembers := ["alice"] } =
      (.ok ["alice"], ⟨"org", [("blue", ["alice"])]⟩, 1) ∧
    300 ≤ 304 ∧ 304 < 404 := by
  exact ⟨rfl, by omega, by omega⟩

/-- C10 -- when the cached entry for a team is the empty list, a call with
the cache flag set does not return it: Python truthiness makes an empty
cached list indistinguishable from an absent one, so the call behaves
exactly like an uncached call and issues one fresh network request. -/
theorem list_team_members_empty_cache_bypassed (api : QuayApi)
    (team : String) (resp : Response)
    (h : dictGet api.team_members team = some []) :
    list_team_members api team true resp =
      list_team_members api team false resp ∧
    (list_team_members api team true resp).2.2 = 1 := by
  have ht : truthyList? (dictGet api.team_members team) = none := by
    rw [h]
    rfl
  refine ⟨by simp [list_team_members, ht], ?_⟩
  simp only [list_team_members, ht, if_true]
  split <;> first | rfl | (split <;> rfl)

/-- Witness for C10: a client whose cache holds the empty list for the team
still issues a request and returns the freshly fetched members. -/
theorem list_team_members_empty_cache_bypassed_witness :
    list_team_members ⟨"org", [("blue", [])]⟩ "blue" true
        { status_code := 200, jsonMembers := ["eve"] } =
      list_team_members ⟨"org", [("blue", [])]⟩ "blue" false
        { status_code := 200, jsonMembers := ["eve"] } ∧
    (list_team_members ⟨"org", [("blue", [])]⟩ "blue" true
        { status_code := 200, jsonMembers := ["eve"] }).2.2 = 1 :=
  list_team_members_empty_cache_bypassed ⟨"org", [("blue", [])]⟩ "blue"
    { status_code := 200, jsonMembers := ["eve"] } rfl

/-- C4 (amended) -- once a `list_team_members` call has returned a nonempty
member list, a second call for that team with the cache flag set returns
that same list from the cache, leaves the state unchanged and issues no
network request. -/
theorem list_team_members_second_call_cached (api api1 : QuayApi)
    (team : String) (c : Bool) (resp resp2 : Response) (ms : List String)
    (n : Nat) (h : list_team_members api team c resp = (.ok ms, api1, n))
    (hne : ms ≠ []) :
    list_team_members api1 team true resp2 = (.ok ms, api1, 0) := by
  have hget : dictGet api1.team_members team = some ms := by
    simp only [list_team_members] at h
    split at h
    · rename_i cached heq
      simp only [Prod.mk.injEq, Except.ok.injEq] at h
      obtain ⟨hms, hapi, -⟩ := h
      subst hapi
      subst hms
      by_cases hc : c
      · rw [if_pos hc] at heq
        exact truthyList?_eq_some _ _ heq
      · rw [if_neg hc] at heq
        exact absurd heq (by simp)
    · split at h
      · simp at h
      · split at h
        · simp at h
        · simp only [Prod.mk.injEq, Except.ok.injEq] at h
          obtain ⟨hms, hapi, -⟩ := h
          rw [← hapi]
          rw [← hms]
          exact dictGet_dictSet_self api.team_members team _
  exact list_team_members_cache_hit api1 team resp2 ms hget hne

/-- Witness for C4 (amended): after fetching the one-member list for a
team, a second cached call returns it with zero requests. -/
theorem list_team_members_second_call_cached_witness :
    list_team_members ⟨"org", [("blue", ["alice"])]⟩ "blue" true
        { status_code := 200 } =
      (.ok ["alice"], ⟨"org", [("blue", ["alice"])]⟩, 0) :=
  list_team_members_second_call_cached ⟨"org", []⟩
    ⟨"org", [("blue", ["alice"])]⟩ "blue" false
    { status_code := 200, jsonMembers := ["alice"] } { status_code := 200 }
    ["alice"] 1 rfl (by simp)

/-- C4 (counterexample) -- a team whose fetched member list is empty: the
first call stores `[]` in the cache, yet the second call with the cache
flag set bypasses it (empty list is falsy), issues another network request
and returns the fresh response instead of the cached value, refuting the
claim for that team. -/
theorem list_team_members_empty_fetch_not_cached :
    list_team_members ⟨"org", []⟩ "blue" true
        { status_code := 200, jsonMembers := [] } =
      (.ok [], ⟨"org", [("blue", [])]⟩, 1) ∧
    list_team_members ⟨"org", [("blue", [])]⟩ "blue" true
        { status_code := 200, jsonMembers := ["eve"] } =
      (.ok ["eve"], ⟨"org", [("blue", ["eve"])]⟩, 1) :=
  ⟨rfl, rfl⟩

/-- Helper: a truthy optional string is kept as it is. -/
theorem truthyStr?_some (s : String) (h : s ≠ "") :
    truthyStr? (some s) = some s := by
  unfold truthyStr?
  split
  · rename_i heq
    rw [Option.some.injEq] at heq
    exact absurd heq h
  · rename_i heq
    exact absurd heq (by simp)
  · rename_i heq
    exact heq.symm

/-- C6 (amended) -- `remove_user_from_team` raises `RequestsException`
after one request when the team DELETE has a status in 400..599 and a body
message other than the expected "does not belong" message; when the team
DELETE is ok or carries exactly that message, it proceeds to the
organization DELETE, raising on an org status in 400..599 and returning
true when the org DELETE is ok (statuses outside 400..599 count as ok). -/
theorem remove_user_from_team_spec (api : QuayApi) (user team : String)
    (rT rO : Response) :
    (400 ≤ rT.status_code → rT.status_code < 600 →
      rT.jsonMessage ≠ expectedRemoveMsg user team →
      remove_user_from_team api user team rT rO =
        (.error (.requestsException rT.status_code rT.text), api, 1)) ∧
    ((rT.ok = true ∨ rT.jsonMessage = expectedRemoveMsg user team) →
      400 ≤ rO.status_code → rO.status_code < 600 →
      remove_user_from_team api user team rT rO =
        (.error (.requestsException rO.status_code rO.text), api, 2)) ∧
    ((rT.ok = true ∨ rT.jsonMessage = expectedRemoveMsg user team) →
      rO.ok = true →
      remove_user_from_team api user team rT rO = (.ok true, api, 2)) := by
  have hcond :
      (rT.ok = true ∨ rT.jsonMessage = expectedRemoveMsg user team) →
      (!rT.ok && rT.jsonMessage != expectedRemoveMsg user team) = false := by
    rintro (h | h) <;> simp [h]
  refine ⟨fun h1 h2 h3 => ?_, fun h h1 h2 => ?_, fun h h1 => ?_⟩
  · have hok : rT.ok = false := by
      simp only [Response.ok, decide_eq_false_iff_not, not_not]
      exact ⟨h1, h2⟩
    simp only [remove_user_from_team]
    rw [if_pos (by simp [hok, bne_iff_ne, h3])]
  · have hok : rO.ok = false := by
      simp only [Response.ok, decide_eq_false_iff_not, not_not]
      exact ⟨h1, h2⟩
    simp only [remove_user_from_team]
    rw [if_neg (by simp [hcond h]), if_pos (by simp [hok])]
  · simp only [remove_user_from_team]
    rw [if_neg (by simp [hcond h]), if_neg (by simp [h1])]

/-- Witness for C6 (amended): a team DELETE failing with a foreign message
raises after one request; with the expected message the org DELETE runs and
the call returns true. -/
theorem remove_user_from_team_spec_witness :
    remove_user_from_team ⟨"org", []⟩ "bob" "blue"
        { status_code := 400, text := "bad", jsonMessage := "nope" }
        { status_code := 204 } =
      (.error (.requestsException 400 "bad"), ⟨"org", []⟩, 1) ∧
    remove_user_from_team ⟨"org", []⟩ "bob" "blue"
        { status_code := 400,
          jsonMessage := "User bob does not belong to team blue" }
        { status_code := 204 } =
      (.ok true, ⟨"org", []⟩, 2) :=
  ⟨(remove_user_from_team_spec ⟨"org", []⟩ "bob" "blue"
      { status_code := 400, text := "bad", jsonMessage := "nope" }
      { status_code := 204 }).1 (by decide) (by decide) (by decide),
   (remove_user_from_team_spec ⟨"org", []⟩ "bob" "blue"
      { status_code := 400,
        jsonMessage := "User bob does not belong to team blue" }
      { status_code := 204 }).2.2 (Or.inr rfl) rfl⟩

/-- C6 (counterexample) -- an organization DELETE answered with 304 (a
non-2xx status) does not raise: the method returns true, refuting "a
non-2xx organization-DELETE always raises". -/
theorem remove_user_from_team_org_304_no_raise :
    remove_user_from_team ⟨"org", []⟩ "bob" "blue" { status_code := 204 }
        { status_code := 304 } = (.ok true, ⟨"org", []⟩, 2) ∧
    300 ≤ 304 :=
  ⟨rfl, by omega⟩

/-- C7 (amended) -- `get_repo_team_permissions` returns the absent sentinel
without raising when a status in 400..599 carries exactly the "no
permission" message, raises `RequestsException` for any other status in
400..599, and on an ok status returns the `role` field when it is present
and nonempty, else the absent sentinel (an empty `role` is collapsed to
absent by `or None`). -/
theorem get_repo_team_permissions_spec (resp : Response) :
    (400 ≤ resp.status_code → resp.status_code < 600 →
      resp.jsonMessage = noPermissionMsg →
      get_repo_team_permissions resp = .ok none) ∧
    (400 ≤ resp.status_code → resp.status_code < 600 →
      resp.jsonMessage ≠ noPermissionMsg →
      get_repo_team_permissions resp =
        .error (.requestsException resp.status_code resp.text)) ∧
    (resp.ok = true → ∀ s, resp.jsonRole = some s → s ≠ "" →
      get_repo_team_permissions resp = .ok (some s)) ∧
    (resp.ok = true → resp.jsonRole = none ∨ resp.jsonRole = some "" →
      get_repo_team_permissions resp = .ok none) := by
  refine ⟨fun h1 h2 h3 => ?_, fun h1 h2 h3 => ?_,
    fun h1 s hs hne => ?_, fun h1 h2 => ?_⟩
  · have hok : resp.ok = false := by
      simp only [Response.ok, decide_eq_false_iff_not, not_not]
      exact ⟨h1, h2⟩
    simp [get_repo_team_permissions, hok, h3]
  · have hok : resp.ok = false := by
      simp only [Response.ok, decide_eq_false_iff_not, not_not]
      exact ⟨h1, h2⟩
    simp [get_repo_team_permissions, hok, h3]
  · simp [get_repo_team_permissions, h1, hs, truthyStr?_some s hne]
  · rcases h2 with h2 | h2 <;>
      simp [get_repo_team_permissions, h1, h2, truthyStr?]

/-- Witness for C7 (amended) at concrete inputs: the tolerated 400, a
foreign 400, a present nonempty role on 200, and an absent role on 200. -/
theorem get_repo_team_permissions_spec_witness :
    get_repo_team_permissions
        { status_code := 400, jsonMessage := noPermissionMsg } = .ok none ∧
    get_repo_team_permissions
        { status_code := 403, text := "denied", jsonMessage := "x" } =
      .error (.requestsException 403 "denied") ∧
    get_repo_team_permissions
        { status_code := 200, jsonRole := some "admin" } = .ok (some "admin") ∧
    get_repo_team_permissions { status_code := 200 } = .ok none :=
  ⟨(get_repo_team_permissions_spec
      { status_code := 400, jsonMessage := noPermissionMsg }).1
      (by decide) (by decide) rfl,
   (get_repo_team_permissions_spec
      { status_code := 403, text := "denied", jsonMessage := "x" }).2.1
      (by decide) (by decide) (by decide),
   (get_repo_team_permissions_spec
      { status_code := 200, jsonRole := some "admin" }).2.2.1 rfl "admin"
      rfl (by decide),
   (get_repo_team_permissions_spec { status_code := 200 }).2.2.2 rfl
      (Or.inl rfl)⟩

/-- C7 (counterexample) -- a 304 response (non-2xx, message differing from
the "no permission" message) is treated as success and its role is
returned, not the generic error; and on a 2xx response whose `role` field
is present but empty, the absent sentinel is returned instead of the
field's value. -/
theorem get_repo_team_permissions_non_2xx_ok :
    get_repo_team_permissions
        { status_code := 304, jsonMessage := "x", jsonRole := some "admin" } =
      .ok (some "admin") ∧
    300 ≤ 304 ∧
    get_repo_team_permissions { status_code := 200, jsonRole := some "" } =
      .ok none :=
  ⟨rfl, by omega, rfl⟩

/-- C8 (amended) -- `remove_user_from_team` never touches the member cache,
and `add_user_to_team` leaves the client state unchanged whenever the cache
entry for the team is populated (nonempty); only an absent or empty entry
can be (re)written, by the cached `list_team_members` lookup it performs. -/
theorem mutation_methods_preserve_populated_cache (api : QuayApi)
    (user team : String) (rT rO rL rP : Response) (ms : List String) :
    (remove_user_from_team api user team rT rO).2.1 = api ∧
    (dictGet api.team_members team = some ms → ms ≠ [] →
      (add_user_to_team api user team rL rP).2.1 = api) := by
  constructor
  · simp only [remove_user_from_team]
    split
    · rfl
    · split <;> rfl
  · intro h hne
    have hl := list_team_members_cache_hit api team rL ms h hne
    simp only [add_user_to_team, hl]
    split <;> first | rfl | (split <;> rfl)

/-- Witness for C8 (amended): with a populated cache entry for the team,
both mutation methods leave the client state unchanged. -/
theorem mutation_methods_preserve_populated_cache_witness :
    (remove_user_from_team ⟨"org", [("blue", ["alice"])]⟩ "bob" "blue"
        { status_code := 204 } { status_code := 204 }).2.1 =
      ⟨"org", [("blue", ["alice"])]⟩ ∧
    (add_user_to_team ⟨"org", [("blue", ["alice"])]⟩ "bob" "blue"
        { status_code := 200, jsonMembers := ["zoe"] }
        { status_code := 201 }).2.1 = ⟨"org", [("blue", ["alice"])]⟩ :=
  ⟨(mutation_methods_preserve_populated_cache ⟨"org", [("blue", ["alice"])]⟩
      "bob" "blue" { status_code := 204 } { status_code := 204 }
      { status_code := 200, jsonMembers := ["zoe"] } { status_code := 201 }
      ["alice"]).1,
   (mutation_methods_preserve_populated_cache ⟨"org", [("blue", ["alice"])]⟩
      "bob" "blue" { status_code := 204 } { status_code := 204 }
      { status_code := 200, jsonMembers := ["zoe"] } { status_code := 201 }
      ["alice"]).2 rfl (by simp)⟩

/-- C8 (counterexample) -- `add_user_to_team` on a client with no cache
entry for the team: its internal `list_team_members(..., cache=True)` call
fetches and stores the member list, so the mutation method does add a cache
entry, refuting "no entry is cleared, added, or updated". -/
theorem add_user_to_team_populates_cache :
    add_user_to_team ⟨"org", []⟩ "bob" "blue"
        { status_code := 200, jsonMembers := ["alice"] }
        { status_code := 201 } =
      (.ok true, ⟨"org", [("blue", ["alice"])]⟩, 2) ∧
    (QuayApi.mk "org" []).team_members.length = 0 ∧
    (QuayApi.mk "org" [("blue", ["alice"])]).team_members.length = 1 :=
  ⟨rfl, rfl, rfl⟩

/-- Helper: along a chain of `n` further linked ok pages, `list_images`
reaches the depth guard once `count + n` passes `LIMIT_FOLLOWS + 1` and the
attempted `raise` of the bare string surfaces. -/
theorem list_images_chain_error (server : Option String → Response) :
    ∀ (n : Nat) (q : Option String) (images : Option (List String))
      (count : Nat), count + n = LIMIT_FOLLOWS + 1 →
      hasChainB server q n = true →
      list_images server images q count =
        .error (.typeErrorNonException "Too many page follows") := by
  have hL : LIMIT_FOLLOWS = 15 := rfl
  intro n
  induction n with
  | zero =>
    intro q images count hcount _
    rw [list_images, dif_pos (by omega)]
  | succ n ih =>
    intro q images count hcount hchain
    simp only [hasChainB, Bool.and_eq_true] at hchain
    obtain ⟨hok, hnext⟩ := hchain
    split at hnext
    · rename_i t heq
      rw [list_images, dif_neg (by omega)]
      simp only [hok, Bool.not_true, Bool.false_eq_true, if_false, heq]
      exact ih (some t) _ (count + 1) (by omega) hnext
    · exact absurd hnext (by simp)

/-- Helper: along a chain that ends after exactly `n` pages within the
depth limit, `list_images` returns the accumulated repositories. -/
theorem list_images_chain_ok (server : Option String → Response) :
    ∀ (n : Nat) (q : Option String) (images : Option (List String))
      (count : Nat), count + n ≤ LIMIT_FOLLOWS + 1 →
      endsChainB server q n = true →
      list_images server images q count =
        .ok (images.getD [] ++ chainRepos server q n) := by
  have hL : LIMIT_FOLLOWS = 15 := rfl
  intro n
  induction n with
  | zero =>
    intro q images count _ hchain
    simp [endsChainB] at hchain
  | succ n ih =>
    intro q images count hcount hchain
    match n, ih, hcount, hchain with
    | 0, _, hcount, hchain =>
      simp only [endsChainB, Bool.and_eq_true,
        Option.isNone_iff_eq_none] at hchain
      obtain ⟨hok, hnone⟩ := hchain
      rw [list_images, dif_neg (by omega)]
      simp only [hok, Bool.not_true, Bool.false_eq_true, if_false, hnone]
      simp [chainRepos, hnone]
    | m + 1, ih, hcount, hchain =>
      simp only [endsChainB, Bool.and_eq_true] at hchain
      obtain ⟨hok, hnext⟩ := hchain
      split at hnext
      · rename_i t heq
        rw [list_images, dif_neg (by omega)]
        simp only [hok, Bool.not_true, Bool.false_eq_true, if_false, heq]
        rw [ih (some t) _ (count + 1) (by omega) hnext]
        simp [chainRepos, heq, List.append_assoc]
      · exact absurd hnext (by simp)

/-- C2 (amended) -- whenever the server presents a chain of at least 17
pages (16 successive ok responses each carrying a truthy next-page token),
`list_images` from a fresh call stops following once the recursion depth
exceeds `LIMIT_FOLLOWS = 15` and fails: the code executes
`raise("Too many page follows")`, whose raised exception (Python's
`TypeError`, since a plain string is not an exception) is distinct from the
generic `RequestsException`. -/
theorem list_images_depth_guard (server : Option String → Response)
    (h : hasChainB server none (LIMIT_FOLLOWS + 1) = true) :
    list_images server none none 0 =
      .error (.typeErrorNonException "Too many page follows") ∧
    ∀ (s : Nat) (t : String),
      (QuayError.typeErrorNonException "Too many page follows") ≠
        .requestsException s t := by
  refine ⟨list_images_chain_error server (LIMIT_FOLLOWS + 1) none none 0
    (by omega) h, ?_⟩
  intro s t hcontra
  exact QuayError.noConfusion hcontra

/-- Witness for C2 (amended): a concrete 17-page chain makes `list_images`
fail with the raised-string error. -/
theorem list_images_depth_guard_witness :
    list_images (chainServer 17) none none 0 =
      .error (.typeErrorNonException "Too many page follows") :=
  (list_images_depth_guard (chainServer 17) (by decide)).1

/-- C2 (counterexample) -- a chain of exactly 16 pages: `list_images`
follows all of them (recursion depth never exceeds 15) and returns the 16
accumulated repositories instead of raising, refuting "for every chain of
16 or more pages a pagination error is raised". -/
theorem list_images_16_pages_succeeds :
    endsChainB (chainServer 16) none 16 = true ∧
    list_images (chainServer 16) none none 0 =
      .ok ["0", "1", "2", "3", "4", "5", "6", "7", "8", "9", "10", "11",
        "12", "13", "14", "15"] := by
  refine ⟨by decide, ?_⟩
  rw [list_images_chain_ok (chainServer 16) 16 none none 0 (by decide)
    (by decide)]
  rfl

end Quay
